import Mathlib

/-!
Shallow embedding of the `TransparentCrowdfunding` Solidity contract
(the core ledger of the CrowdFunding repository) and proofs about its
specification.

Modelling conventions:
* Addresses are natural numbers; `0` is `address(0)`.
* Solidity storage mappings become total functions with the Solidity
  default value (`defaultProject`, `[]`, `0`, `false`).
* Every external entry point becomes a function
  `CState → … → Except Err (CState × List Event × Option Nat)`.
  `Except.error` models a revert: the caller observes the pre-state
  (the EVM discards all writes of a reverted call), which is what
  `execCall` implements.  The `Option Nat` component is the ABI return
  data: `none` for a function with no `returns` clause.
* `block.timestamp` and `msg.value` are explicit arguments (`now`,
  `value`).  The outcome of a low-level `call{value: …}` transfer is the
  explicit argument `transferOk`.
* The OpenZeppelin `nonReentrant` modifier is the `locked` flag: it is
  checked and set on entry of `contribute` and `claimRefund` and cleared
  on exit.  For the two functions that perform an outbound transfer we
  additionally expose the intermediate state at the moment of the
  transfer (`approveExpenseMid`, `claimRefundMid`): a reentrant call
  triggered by the transfer runs against exactly that state.
* Solidity checked-arithmetic overflow and array out-of-bounds panics
  are reverts; out-of-bounds expense access is modelled as `Err.NotFound`.
-/

namespace Crowdfunding

/-- Project status, `enum ProjectStatus { Active, Completed, Cancelled }`;
the Solidity default value of the enum is its first member, `Active`. -/
inductive ProjectStatus where
  | Active
  | Completed
  | Cancelled
deriving DecidableEq, Repr

/-- `enum ExpenseCategory`. -/
inductive ExpenseCategory where
  | Development
  | Marketing
  | Operations
  | Infrastructure
  | Other
deriving DecidableEq, Repr

/-- `struct Project`. -/
structure Project where
  title : String
  description : String
  creator : Nat
  goalAmount : Nat
  currentAmount : Nat
  deadline : Nat
  status : ProjectStatus
  fundsReleased : Bool
  totalExpenses : Nat
  createdAt : Nat
deriving DecidableEq, Repr

/-- The all-zero storage slot a `mapping(uint256 => Project)` yields for a
key that was never written. -/
def defaultProject : Project :=
  { title := "", description := "", creator := 0, goalAmount := 0,
    currentAmount := 0, deadline := 0, status := .Active,
    fundsReleased := false, totalExpenses := 0, createdAt := 0 }

/-- `struct Expense`. -/
structure Expense where
  description : String
  amount : Nat
  category : ExpenseCategory
  timestamp : Nat
  approved : Bool
  proofUrl : String
deriving DecidableEq, Repr

/-- `struct Contribution`. -/
structure Contribution where
  contributor : Nat
  amount : Nat
  timestamp : Nat
deriving DecidableEq, Repr

/-- The audit events emitted by the contract. -/
inductive Event where
  | ProjectCreated (projectId : Nat) (title : String) (creator : Nat)
      (goalAmount : Nat) (deadline : Nat)
  | ContributionMade (projectId : Nat) (contributor : Nat) (amount : Nat)
  | ExpenseSubmitted (projectId : Nat) (expenseIndex : Nat)
      (description : String) (amount : Nat)
  | ExpenseApproved (projectId : Nat) (expenseIndex : Nat)
  | FundsReleased (projectId : Nat) (amount : Nat)
  | ProjectCompleted (projectId : Nat)
  | ProjectCancelled (projectId : Nat)
  | RefundClaimed (projectId : Nat) (contributor : Nat) (amount : Nat)
deriving DecidableEq, Repr

/-- Error kinds of the specification, one per class of revert reason. -/
inductive Err where
  | PermissionDenied
  | SystemPaused
  | NotFound
  | InvalidArgument
  | InvariantViolation
  | IllegalStateTransition
  | AlreadyClaimed
  | ReentrancyDetected
  | TransferFailed
deriving DecidableEq, Repr

/-- The two roles of the contract: `DEFAULT_ADMIN_ROLE` and
`PROJECT_CREATOR_ROLE`. -/
inductive Role where
  | admin
  | creator
deriving DecidableEq, Repr

/-- Full contract storage. -/
structure CState where
  projects : Nat → Project
  projectExpenses : Nat → List Expense
  projectContributions : Nat → List Contribution
  contributions : Nat → Nat → Nat
  refundClaimed : Nat → Nat → Bool
  projectCount : Nat
  paused : Bool
  locked : Bool
  admins : Nat → Bool
  creators : Nat → Bool

/-- State right after the constructor ran with `msg.sender = deployer`:
the deployer holds both roles, everything else is zeroed. -/
def initState (deployer : Nat) : CState :=
  { projects := fun _ => defaultProject
    projectExpenses := fun _ => []
    projectContributions := fun _ => []
    contributions := fun _ _ => 0
    refundClaimed := fun _ _ => false
    projectCount := 0
    paused := false
    locked := false
    admins := fun a => a == deployer
    creators := fun a => a == deployer }

/-- `MINIMUM_CONTRIBUTION = 0.01 ether` in wei. -/
def MINIMUM_CONTRIBUTION : Nat := 10000000000000000

/-- One day in seconds (`1 days`). -/
def oneDay : Nat := 86400

/-- `MINIMUM_FUNDING_PERIOD = 1 days`. -/
def MINIMUM_FUNDING_PERIOD : Nat := oneDay

/-- `MAXIMUM_FUNDING_PERIOD = 90 days`. -/
def MAXIMUM_FUNDING_PERIOD : Nat := 90 * oneDay

/-- The result type of every external call: revert, or new state plus the
emitted events plus the ABI return data (`none`: no `returns` clause). -/
abbrev CallResult := Except Err (CState × List Event × Option Nat)

/-- ABI return data of a call result (`none` when the call reverted or the
function declares no return value). -/
def retData (r : CallResult) : Option Nat :=
  match r with
  | .ok (_, _, d) => d
  | .error _ => none

/-- Events emitted by a call result (`[]` when it reverted). -/
def eventsOf (r : CallResult) : List Event :=
  match r with
  | .ok (_, ev, _) => ev
  | .error _ => []

/-- Successful-case state written by `createProject` — note that the code
only assigns `title`, `description`, `creator`, `goalAmount`, `deadline`,
`status` and `createdAt`; the remaining fields of the storage slot keep
their previous (for a fresh id: zero) values. -/
def createProjectOk (s : CState) (sender now : Nat) (title description : String)
    (goalAmount durationInDays : Nat) : CState :=
  let pid := s.projectCount
  let p := { s.projects pid with
    title := title
    description := description
    creator := sender
    goalAmount := goalAmount
    deadline := now + durationInDays * oneDay
    status := ProjectStatus.Active
    createdAt := now }
  { s with
    projects := fun i => if i = pid then p else s.projects i
    projectCount := pid + 1 }

/-- `createProject(title, description, goalAmount, durationInDays)`,
modifiers `whenNotPaused onlyRole(PROJECT_CREATOR_ROLE)` in that order. -/
def createProject (s : CState) (sender now : Nat) (title description : String)
    (goalAmount durationInDays : Nat) : CallResult :=
  if s.paused then .error .SystemPaused else
  if ¬ s.creators sender then .error .PermissionDenied else
  if goalAmount = 0 then .error .InvalidArgument else
  if durationInDays * oneDay < MINIMUM_FUNDING_PERIOD then .error .InvalidArgument else
  if durationInDays * oneDay > MAXIMUM_FUNDING_PERIOD then .error .InvalidArgument else
  .ok (createProjectOk s sender now title description goalAmount durationInDays,
    [Event.ProjectCreated s.projectCount title sender goalAmount
      (now + durationInDays * oneDay)], none)

/-- Successful-case state written by `contribute`. -/
def contributeOk (s : CState) (sender now value pid : Nat) : CState :=
  { s with
    projects := fun i =>
      if i = pid then
        { s.projects pid with currentAmount := (s.projects pid).currentAmount + value }
      else s.projects i
    contributions := fun i a =>
      if i = pid ∧ a = sender then s.contributions i a + value else s.contributions i a
    projectContributions := fun i =>
      if i = pid then
        s.projectContributions i ++ [{ contributor := sender, amount := value, timestamp := now }]
      else s.projectContributions i }

/-- `contribute(projectId)`, modifiers `whenNotPaused nonReentrant`:
the pause gate fires first, then the reentrancy lock is checked; the body
makes no external call, so on exit the lock is back at its entry value. -/
def contribute (s : CState) (sender now value pid : Nat) : CallResult :=
  if s.paused then .error .SystemPaused else
  if s.locked then .error .ReentrancyDetected else
  if (s.projects pid).creator = 0 then .error .NotFound else
  if (s.projects pid).status ≠ ProjectStatus.Active then .error .IllegalStateTransition else
  if (s.projects pid).deadline ≤ now then .error .IllegalStateTransition else
  if value < MINIMUM_CONTRIBUTION then .error .InvalidArgument else
  if (s.projects pid).goalAmount < (s.projects pid).currentAmount + value then
    .error .InvariantViolation else
  .ok (contributeOk s sender now value pid, [Event.ContributionMade pid sender value], none)

/-- Successful-case state written by `submitExpense`. -/
def submitExpenseOk (s : CState) (now pid : Nat) (description : String)
    (amount : Nat) (category : ExpenseCategory) (proofUrl : String) : CState :=
  { s with
    projectExpenses := fun i =>
      if i = pid then
        s.projectExpenses i ++
          [{ description := description, amount := amount, category := category,
             timestamp := now, approved := false, proofUrl := proofUrl }]
      else s.projectExpenses i }

/-- `submitExpense(projectId, description, amount, category, proofUrl)`,
modifier `whenNotPaused`; the emitted index is the length of the expense
list before the push. -/
def submitExpense (s : CState) (sender now pid : Nat) (description : String)
    (amount : Nat) (category : ExpenseCategory) (proofUrl : String) : CallResult :=
  if s.paused then .error .SystemPaused else
  if sender ≠ (s.projects pid).creator then .error .PermissionDenied else
  if (s.projects pid).status = ProjectStatus.Cancelled then .error .IllegalStateTransition else
  if (s.projects pid).currentAmount < (s.projects pid).totalExpenses + amount then
    .error .InvariantViolation else
  .ok (submitExpenseOk s now pid description amount category proofUrl,
    [Event.ExpenseSubmitted pid (s.projectExpenses pid).length description amount], none)

/-- The part of `approveExpense` that runs before the outbound transfer:
all precondition checks, then `expense.approved = true` and
`project.totalExpenses += expense.amount`.  On success it returns the
state at the moment `project.creator.call{value: expense.amount}("")` is
issued, together with the transfer amount and recipient.  `approveExpense`
carries no `nonReentrant` modifier, so the lock is neither checked nor
set here. -/
def approveExpenseMid (s : CState) (sender pid idx : Nat) :
    Except Err (CState × Nat × Nat) :=
  if ¬ s.admins sender then .error .PermissionDenied else
  if (s.projects pid).status = ProjectStatus.Cancelled then .error .IllegalStateTransition else
  match (s.projectExpenses pid).get? idx with
  | none => .error .NotFound
  | some expense =>
    if expense.approved then .error .InvariantViolation else
    .ok
      ({ s with
          projectExpenses := fun i =>
            if i = pid then (s.projectExpenses i).set idx { expense with approved := true }
            else s.projectExpenses i
          projects := fun i =>
            if i = pid then
              { s.projects pid with
                  totalExpenses := (s.projects pid).totalExpenses + expense.amount }
            else s.projects i },
        expense.amount, (s.projects pid).creator)

/-- `approveExpense(projectId, expenseIndex)`, modifier
`onlyRole(DEFAULT_ADMIN_ROLE)` only: runs `approveExpenseMid`, then the
transfer; a failed transfer reverts the whole call (`TransferFailed`). -/
def approveExpense (s : CState) (sender pid idx : Nat) (transferOk : Bool) : CallResult :=
  match approveExpenseMid s sender pid idx with
  | .error e => .error e
  | .ok (mid, amt, _) =>
    if transferOk then
      .ok (mid, [Event.ExpenseApproved pid idx, Event.FundsReleased pid amt], none)
    else .error .TransferFailed

/-- `completeProject(projectId)`, `onlyRole(DEFAULT_ADMIN_ROLE)`. -/
def completeProject (s : CState) (sender pid : Nat) : CallResult :=
  if ¬ s.admins sender then .error .PermissionDenied else
  if (s.projects pid).status ≠ ProjectStatus.Active then .error .IllegalStateTransition else
  .ok ({ s with projects := fun i =>
      if i = pid then { s.projects pid with status := ProjectStatus.Completed }
      else s.projects i },
    [Event.ProjectCompleted pid], none)

/-- `cancelProject(projectId)`, `onlyRole(DEFAULT_ADMIN_ROLE)`. -/
def cancelProject (s : CState) (sender pid : Nat) : CallResult :=
  if ¬ s.admins sender then .error .PermissionDenied else
  if (s.projects pid).status ≠ ProjectStatus.Active then .error .IllegalStateTransition else
  .ok ({ s with projects := fun i =>
      if i = pid then { s.projects pid with status := ProjectStatus.Cancelled }
      else s.projects i },
    [Event.ProjectCancelled pid], none)

/-- The part of `claimRefund` that runs before the outbound transfer: the
`nonReentrant` modifier acquires the lock, then the precondition checks,
then `refundClaimed[projectId][msg.sender] = true`.  On success it returns
the state at the moment `payable(msg.sender).call{value: …}("")` is issued
(lock held) together with the refunded amount. -/
def claimRefundMid (s : CState) (sender pid : Nat) : Except Err (CState × Nat) :=
  if s.locked then .error .ReentrancyDetected else
  if (s.projects pid).status ≠ ProjectStatus.Cancelled then .error .IllegalStateTransition else
  if s.contributions pid sender = 0 then .error .NotFound else
  if s.refundClaimed pid sender then .error .AlreadyClaimed else
  .ok
    ({ s with
        locked := true
        refundClaimed := fun i a =>
          if i = pid ∧ a = sender then true else s.refundClaimed i a },
      s.contributions pid sender)

/-- `claimRefund(projectId)`, modifier `nonReentrant`: runs
`claimRefundMid`, then the transfer, then the modifier releases the lock;
a failed transfer reverts the whole call (`TransferFailed`). -/
def claimRefund (s : CState) (sender pid : Nat) (transferOk : Bool) : CallResult :=
  match claimRefundMid s sender pid with
  | .error e => .error e
  | .ok (mid, amt) =>
    if transferOk then
      .ok ({ mid with locked := false }, [Event.RefundClaimed pid sender amt], none)
    else .error .TransferFailed

/-- `pause()`, `onlyRole(DEFAULT_ADMIN_ROLE)`; OpenZeppelin `_pause` itself
requires the system not to be paused already. -/
def pause (s : CState) (sender : Nat) : CallResult :=
  if ¬ s.admins sender then .error .PermissionDenied else
  if s.paused then .error .SystemPaused else
  .ok ({ s with paused := true }, [], none)

/-- `unpause()`, `onlyRole(DEFAULT_ADMIN_ROLE)`; OpenZeppelin `_unpause`
requires the system to be paused. -/
def unpause (s : CState) (sender : Nat) : CallResult :=
  if ¬ s.admins sender then .error .PermissionDenied else
  if ¬ s.paused then .error .InvalidArgument else
  .ok ({ s with paused := false }, [], none)

/-- Membership update for a role set. -/
def setRole (s : CState) (r : Role) (account : Nat) (b : Bool) : CState :=
  match r with
  | .admin => { s with admins := fun a => if a = account then b else s.admins a }
  | .creator => { s with creators := fun a => if a = account then b else s.creators a }

/-- Whether `account` holds role `r` in state `s`. -/
def hasRole (s : CState) (r : Role) (account : Nat) : Bool :=
  match r with
  | .admin => s.admins account
  | .creator => s.creators account

/-- Inherited `grantRole(role, account)`: only the role's admin role
(`DEFAULT_ADMIN_ROLE` for both roles here) may call; granting an already
held role is a no-op success. -/
def grantRole (s : CState) (sender : Nat) (r : Role) (account : Nat) : CallResult :=
  if ¬ s.admins sender then .error .PermissionDenied else
  .ok (setRole s r account true, [], none)

/-- Inherited `revokeRole(role, account)`. -/
def revokeRole (s : CState) (sender : Nat) (r : Role) (account : Nat) : CallResult :=
  if ¬ s.admins sender then .error .PermissionDenied else
  .ok (setRole s r account false, [], none)

/-- Inherited `renounceRole(role, account)`: the confirmation argument must
equal the caller. -/
def renounceRole (s : CState) (sender : Nat) (r : Role) (account : Nat) : CallResult :=
  if account ≠ sender then .error .InvalidArgument else
  .ok (setRole s r sender false, [], none)

/-- `grantProjectCreatorRole(account)`, Admin-only wrapper around
`grantRole(PROJECT_CREATOR_ROLE, account)`. -/
def grantProjectCreatorRole (s : CState) (sender account : Nat) : CallResult :=
  if ¬ s.admins sender then .error .PermissionDenied else
  .ok (setRole s .creator account true, [], none)

/-- One external call into the contract, with its caller, timestamp, value
and transfer outcome where relevant. -/
inductive Call where
  | createProject (sender now : Nat) (title description : String)
      (goalAmount durationInDays : Nat)
  | contribute (sender now value pid : Nat)
  | submitExpense (sender now pid : Nat) (description : String) (amount : Nat)
      (category : ExpenseCategory) (proofUrl : String)
  | approveExpense (sender pid idx : Nat) (transferOk : Bool)
  | completeProject (sender pid : Nat)
  | cancelProject (sender pid : Nat)
  | claimRefund (sender pid : Nat) (transferOk : Bool)
  | pause (sender : Nat)
  | unpause (sender : Nat)
  | grantRole (sender : Nat) (r : Role) (account : Nat)
  | revokeRole (sender : Nat) (r : Role) (account : Nat)
  | renounceRole (sender : Nat) (r : Role) (account : Nat)
  | grantProjectCreatorRole (sender account : Nat)

/-- The caller of a call. -/
def senderOf : Call → Nat
  | .createProject sender _ _ _ _ _ => sender
  | .contribute sender _ _ _ => sender
  | .submitExpense sender _ _ _ _ _ _ => sender
  | .approveExpense sender _ _ _ => sender
  | .completeProject sender _ => sender
  | .cancelProject sender _ => sender
  | .claimRefund sender _ _ => sender
  | .pause sender => sender
  | .unpause sender => sender
  | .grantRole sender _ _ => sender
  | .revokeRole sender _ _ => sender
  | .renounceRole sender _ _ => sender
  | .grantProjectCreatorRole sender _ => sender

/-- Dispatch a call to its entry point. -/
def run (s : CState) : Call → CallResult
  | .createProject sender now title description goal dur =>
      createProject s sender now title description goal dur
  | .contribute sender now value pid => contribute s sender now value pid
  | .submitExpense sender now pid description amount category proofUrl =>
      submitExpense s sender now pid description amount category proofUrl
  | .approveExpense sender pid idx ok => approveExpense s sender pid idx ok
  | .completeProject sender pid => completeProject s sender pid
  | .cancelProject sender pid => cancelProject s sender pid
  | .claimRefund sender pid ok => claimRefund s sender pid ok
  | .pause sender => pause s sender
  | .unpause sender => unpause s sender
  | .grantRole sender r account => grantRole s sender r account
  | .revokeRole sender r account => revokeRole s sender r account
  | .renounceRole sender r account => renounceRole s sender r account
  | .grantProjectCreatorRole sender account => grantProjectCreatorRole s sender account

/-- The state after a call: a revert leaves the pre-state intact (the
substrate discards all writes of a reverted call). -/
def execCall (s : CState) (c : Call) : CState :=
  match run s c with
  | .ok (t, _, _) => t
  | .error _ => s

/-- States the deployed contract can reach: the constructor state followed
by any sequence of external calls.  `msg.sender` of a real transaction is
never `address(0)`, hence the nonzero-sender side conditions. -/
inductive Reachable : CState → Prop where
  | init (deployer : Nat) (hd : deployer ≠ 0) : Reachable (initState deployer)
  | step {s : CState} (c : Call) (hs : senderOf c ≠ 0) (h : Reachable s) :
      Reachable (execCall s c)



/-! ### Generic helper lemmas -/

theorem except_isOk_iff {ε α : Type} (r : Except ε α) :
    r.isOk = true ↔ ∃ a, r = .ok a := by
  cases r <;> simp [Except.isOk, Except.toBool]

theorem except_isOk_false_iff {ε α : Type} (r : Except ε α) :
    r.isOk = false ↔ ∃ e, r = .error e := by
  cases r <;> simp [Except.isOk, Except.toBool]

/-! ### Success-case inversion lemmas, one per entry point -/

theorem contribute_eq_ok_iff (s : CState) (sender now value pid : Nat)
    (t : CState) (ev : List Event) (r : Option Nat) :
    contribute s sender now value pid = .ok (t, ev, r) ↔
      (s.paused = false ∧ s.locked = false ∧ (s.projects pid).creator ≠ 0 ∧
       (s.projects pid).status = ProjectStatus.Active ∧
       now < (s.projects pid).deadline ∧
       MINIMUM_CONTRIBUTION ≤ value ∧
       (s.projects pid).currentAmount + value ≤ (s.projects pid).goalAmount ∧
       t = contributeOk s sender now value pid ∧
       ev = [Event.ContributionMade pid sender value] ∧ r = none) := by
  unfold contribute
  split
  · simp_all
  · split
    · simp_all
    · split
      · simp_all
      · split
        · simp_all
        · split
          · next h =>
            constructor
            · intro hc; simp at hc
            · rintro ⟨-, -, -, -, h5, -, -, -, -, -⟩; exfalso; omega
          · split
            · next h =>
              constructor
              · intro hc; simp at hc
              · rintro ⟨-, -, -, -, -, h6, -, -, -, -⟩; exfalso; omega
            · split
              · next h =>
                constructor
                · intro hc; simp at hc
                · rintro ⟨-, -, -, -, -, -, h7, -, -, -⟩; exfalso; omega
              · next h1 h2 h3 h4 h5 h6 h7 =>
                simp only [Except.ok.injEq, Prod.mk.injEq]
                constructor
                · rintro ⟨ht, hev, hr⟩
                  exact ⟨by simpa using h1, by simpa using h2, by simpa using h3,
                    by simpa using h4, by omega, by omega, by omega, ht.symm, hev.symm, hr.symm⟩
                · rintro ⟨-, -, -, -, -, -, -, ht, hev, hr⟩
                  exact ⟨ht.symm, hev.symm, hr.symm⟩

theorem createProject_eq_ok_iff (s : CState) (sender now : Nat)
    (title description : String) (goal dur : Nat)
    (t : CState) (ev : List Event) (r : Option Nat) :
    createProject s sender now title description goal dur = .ok (t, ev, r) ↔
      (s.paused = false ∧ s.creators sender = true ∧ 0 < goal ∧
       1 ≤ dur ∧ dur ≤ 90 ∧
       t = createProjectOk s sender now title description goal dur ∧
       ev = [Event.ProjectCreated s.projectCount title sender goal (now + dur * oneDay)] ∧
       r = none) := by
  unfold createProject MINIMUM_FUNDING_PERIOD MAXIMUM_FUNDING_PERIOD oneDay
  split
  · simp_all
  · split
    · simp_all
    · split
      · next h =>
        constructor
        · intro hc; simp at hc
        · rintro ⟨-, -, h3, -, -, -, -, -⟩; exfalso; omega
      · split
        · next h =>
          constructor
          · intro hc; simp at hc
          · rintro ⟨-, -, -, h4, -, -, -, -⟩; exfalso; omega
        · split
          · next h =>
            constructor
            · intro hc; simp at hc
            · rintro ⟨-, -, -, -, h5, -, -, -⟩; exfalso
              have : dur * 86400 ≤ 90 * 86400 := Nat.mul_le_mul_right 86400 h5
              omega
          · next h1 h2 h3 h4 h5 =>
            simp only [Except.ok.injEq, Prod.mk.injEq]
            constructor
            · rintro ⟨ht, hev, hr⟩
              exact ⟨by simpa using h1, by simpa using h2, by omega, by omega, by omega,
                ht.symm, hev.symm, hr.symm⟩
            · rintro ⟨-, -, -, -, -, ht, hev, hr⟩
              exact ⟨ht.symm, hev.symm, hr.symm⟩


theorem submitExpense_eq_ok_iff (s : CState) (sender now pid : Nat)
    (description : String) (amount : Nat) (category : ExpenseCategory)
    (proofUrl : String) (t : CState) (ev : List Event) (r : Option Nat) :
    submitExpense s sender now pid description amount category proofUrl = .ok (t, ev, r) ↔
      (s.paused = false ∧ sender = (s.projects pid).creator ∧
       (s.projects pid).status ≠ ProjectStatus.Cancelled ∧
       (s.projects pid).totalExpenses + amount ≤ (s.projects pid).currentAmount ∧
       t = submitExpenseOk s now pid description amount category proofUrl ∧
       ev = [Event.ExpenseSubmitted pid (s.projectExpenses pid).length description amount] ∧
       r = none) := by
  unfold submitExpense
  split
  · simp_all
  · split
    · simp_all
    · split
      · simp_all
      · split
        · next h =>
          constructor
          · intro hc; simp at hc
          · rintro ⟨-, -, -, h4, -, -, -⟩; exfalso; omega
        · next h1 h2 h3 h4 =>
          simp only [Except.ok.injEq, Prod.mk.injEq]
          constructor
          · rintro ⟨ht, hev, hr⟩
            exact ⟨by simpa using h1, by simpa using h2, by simpa using h3, by omega,
              ht.symm, hev.symm, hr.symm⟩
          · rintro ⟨-, -, -, -, ht, hev, hr⟩
            exact ⟨ht.symm, hev.symm, hr.symm⟩

theorem approveExpenseMid_eq_ok_iff (s : CState) (sender pid idx : Nat)
    (t : CState) (amt rcpt : Nat) :
    approveExpenseMid s sender pid idx = .ok (t, amt, rcpt) ↔
      (s.admins sender = true ∧
       (s.projects pid).status ≠ ProjectStatus.Cancelled ∧
       ∃ expense, (s.projectExpenses pid).get? idx = some expense ∧
         expense.approved = false ∧
         amt = expense.amount ∧ rcpt = (s.projects pid).creator ∧
         t = { s with
                projectExpenses := fun i =>
                  if i = pid then (s.projectExpenses i).set idx { expense with approved := true }
                  else s.projectExpenses i
                projects := fun i =>
                  if i = pid then
                    { s.projects pid with
                        totalExpenses := (s.projects pid).totalExpenses + expense.amount }
                  else s.projects i }) := by
  unfold approveExpenseMid
  split
  · next h1 => simp_all
  · next h1 =>
    split
    · next h2 => simp_all
    · next h2 =>
      split
      · next heq =>
        constructor
        · intro hc; simp at hc
        · rintro ⟨-, -, e2, he2, -⟩
          rw [heq] at he2; exact Option.noConfusion he2
      · next expense heq =>
        split
        · next happ =>
          constructor
          · intro hc; simp at hc
          · rintro ⟨-, -, e2, he2, happ2, -⟩
            rw [heq] at he2
            obtain rfl : expense = e2 := Option.some.inj he2
            rw [happ] at happ2; exact Bool.noConfusion happ2
        · next happ =>
          simp only [Except.ok.injEq, Prod.mk.injEq]
          constructor
          · rintro ⟨ht, hamt, hrcpt⟩
            exact ⟨by simpa using h1, by simpa using h2, expense, heq,
              by simpa using happ, hamt.symm, hrcpt.symm, ht.symm⟩
          · rintro ⟨-, -, e2, he2, -, hamt, hrcpt, ht⟩
            rw [heq] at he2
            obtain rfl : expense = e2 := Option.some.inj he2
            exact ⟨ht.symm, hamt.symm, hrcpt.symm⟩

theorem completeProject_eq_ok_iff (s : CState) (sender pid : Nat)
    (t : CState) (ev : List Event) (r : Option Nat) :
    completeProject s sender pid = .ok (t, ev, r) ↔
      (s.admins sender = true ∧ (s.projects pid).status = ProjectStatus.Active ∧
       t = { s with projects := fun i =>
              if i = pid then { s.projects pid with status := ProjectStatus.Completed }
              else s.projects i } ∧
       ev = [Event.ProjectCompleted pid] ∧ r = none) := by
  unfold completeProject
  split
  · simp_all
  · split
    · simp_all
    · next h1 h2 =>
      simp only [Except.ok.injEq, Prod.mk.injEq]
      constructor
      · rintro ⟨ht, hev, hr⟩
        exact ⟨by simpa using h1, by simpa using h2, ht.symm, hev.symm, hr.symm⟩
      · rintro ⟨-, -, ht, hev, hr⟩
        exact ⟨ht.symm, hev.symm, hr.symm⟩

theorem cancelProject_eq_ok_iff (s : CState) (sender pid : Nat)
    (t : CState) (ev : List Event) (r : Option Nat) :
    cancelProject s sender pid = .ok (t, ev, r) ↔
      (s.admins sender = true ∧ (s.projects pid).status = ProjectStatus.Active ∧
       t = { s with projects := fun i =>
              if i = pid then { s.projects pid with status := ProjectStatus.Cancelled }
              else s.projects i } ∧
       ev = [Event.ProjectCancelled pid] ∧ r = none) := by
  unfold cancelProject
  split
  · simp_all
  · split
    · simp_all
    · next h1 h2 =>
      simp only [Except.ok.injEq, Prod.mk.injEq]
      constructor
      · rintro ⟨ht, hev, hr⟩
        exact ⟨by simpa using h1, by simpa using h2, ht.symm, hev.symm, hr.symm⟩
      · rintro ⟨-, -, ht, hev, hr⟩
        exact ⟨ht.symm, hev.symm, hr.symm⟩

theorem claimRefundMid_eq_ok_iff (s : CState) (sender pid : Nat)
    (t : CState) (amt : Nat) :
    claimRefundMid s sender pid = .ok (t, amt) ↔
      (s.locked = false ∧ (s.projects pid).status = ProjectStatus.Cancelled ∧
       0 < s.contributions pid sender ∧ s.refundClaimed pid sender = false ∧
       amt = s.contributions pid sender ∧
       t = { s with
              locked := true
              refundClaimed := fun i a =>
                if i = pid ∧ a = sender then true else s.refundClaimed i a }) := by
  unfold claimRefundMid
  split
  · simp_all
  · split
    · simp_all
    · split
      · next h =>
        constructor
        · intro hc; simp at hc
        · rintro ⟨-, -, h3, -, -, -⟩; exfalso; omega
      · split
        · simp_all
        · next h1 h2 h3 h4 =>
          simp only [Except.ok.injEq, Prod.mk.injEq]
          constructor
          · rintro ⟨ht, hamt⟩
            exact ⟨by simpa using h1, by simpa using h2, by omega, by simpa using h4,
              hamt.symm, ht.symm⟩
          · rintro ⟨-, -, -, -, hamt, ht⟩
            exact ⟨ht.symm, hamt.symm⟩

/-! ### The global state invariant and its preservation -/

/-- Invariant of every reachable contract state: every project slot
respects `currentAmount ≤ goalAmount`, slots at ids not yet assigned are
untouched in their `creator` and `currentAmount` fields, and the
reentrancy lock is released between calls. -/
def Inv (s : CState) : Prop :=
  (∀ pid, (s.projects pid).currentAmount ≤ (s.projects pid).goalAmount) ∧
  (∀ pid, s.projectCount ≤ pid →
    (s.projects pid).creator = 0 ∧ (s.projects pid).currentAmount = 0) ∧
  s.locked = false

theorem inv_initState (deployer : Nat) : Inv (initState deployer) := by
  refine ⟨fun pid => ?_, fun pid _ => ⟨rfl, rfl⟩, rfl⟩
  exact Nat.le_refl 0

theorem inv_createProjectOk {s : CState} (h : Inv s) (sender now : Nat)
    (title description : String) (goal dur : Nat) :
    Inv (createProjectOk s sender now title description goal dur) := by
  obtain ⟨h1, h2, h3⟩ := h
  refine ⟨?_, ?_, h3⟩
  · intro i
    by_cases hi : i = s.projectCount
    · subst hi
      simp only [createProjectOk]
      have hc := (h2 s.projectCount (Nat.le_refl _)).2
      simp [hc]
    · simp only [createProjectOk]
      simp only [if_neg hi]
      exact h1 i
  · intro i hcount
    simp only [createProjectOk] at hcount ⊢
    have hi : i ≠ s.projectCount := by omega
    simp only [if_neg hi]
    exact h2 i (by omega)

theorem inv_contributeOk {s : CState} (h : Inv s) (sender now value pid : Nat)
    (hcr : (s.projects pid).creator ≠ 0)
    (hgoal : (s.projects pid).currentAmount + value ≤ (s.projects pid).goalAmount) :
    Inv (contributeOk s sender now value pid) := by
  obtain ⟨h1, h2, h3⟩ := h
  refine ⟨?_, ?_, h3⟩
  · intro i
    by_cases hi : i = pid
    · subst hi
      simp only [contributeOk, if_pos rfl]
      simpa using hgoal
    · simp only [contributeOk, if_neg hi]
      exact h1 i
  · intro i hcount
    have hi : i ≠ pid := by
      rintro rfl
      exact hcr (h2 i hcount).1
    simp only [contributeOk, if_neg hi]
    exact h2 i hcount

theorem inv_submitExpenseOk {s : CState} (h : Inv s) (now pid : Nat)
    (description : String) (amount : Nat) (category : ExpenseCategory)
    (proofUrl : String) :
    Inv (submitExpenseOk s now pid description amount category proofUrl) := h

theorem inv_approveExpenseMid {s t : CState} {sender pid idx amt rcpt : Nat}
    (h : Inv s) (hm : approveExpenseMid s sender pid idx = .ok (t, amt, rcpt)) :
    Inv t := by
  rw [approveExpenseMid_eq_ok_iff] at hm
  obtain ⟨-, -, e, -, -, -, -, ht⟩ := hm
  subst ht
  obtain ⟨h1, h2, h3⟩ := h
  refine ⟨?_, ?_, h3⟩
  · intro i
    by_cases hi : i = pid
    · subst hi
      simpa using h1 i
    · simpa [hi] using h1 i
  · intro i hcount
    by_cases hi : i = pid
    · subst hi
      simpa using h2 i hcount
    · simpa [hi] using h2 i hcount

theorem inv_statusUpdate {s : CState} (h : Inv s) (pid : Nat) (st : ProjectStatus) :
    Inv { s with projects := fun i =>
        if i = pid then { s.projects pid with status := st } else s.projects i } := by
  obtain ⟨h1, h2, h3⟩ := h
  refine ⟨?_, ?_, h3⟩
  · intro i
    by_cases hi : i = pid
    · subst hi; simpa using h1 i
    · simpa [hi] using h1 i
  · intro i hcount
    by_cases hi : i = pid
    · subst hi; simpa using h2 i hcount
    · simpa [hi] using h2 i hcount

theorem inv_setRole {s : CState} (h : Inv s) (r : Role) (account : Nat) (b : Bool) :
    Inv (setRole s r account b) := by
  cases r <;> exact h

/-- Every single external call preserves the invariant: a revert keeps the
old state, a success establishes it anew. -/
theorem inv_execCall {s : CState} (c : Call) (h : Inv s) : Inv (execCall s c) := by
  unfold execCall
  cases hr : run s c with
  | error e => exact h
  | ok t =>
    obtain ⟨t, ev, r⟩ := t
    cases c with
    | createProject sender now title description goal dur =>
      simp only [run] at hr
      rw [createProject_eq_ok_iff] at hr
      obtain ⟨-, -, -, -, -, ht, -, -⟩ := hr
      subst ht
      exact inv_createProjectOk h sender now title description goal dur
    | contribute sender now value pid =>
      simp only [run] at hr
      rw [contribute_eq_ok_iff] at hr
      obtain ⟨-, -, hcr, -, -, -, hgoal, ht, -, -⟩ := hr
      subst ht
      exact inv_contributeOk h sender now value pid hcr hgoal
    | submitExpense sender now pid description amount category proofUrl =>
      simp only [run] at hr
      rw [submitExpense_eq_ok_iff] at hr
      obtain ⟨-, -, -, -, ht, -, -⟩ := hr
      subst ht
      exact inv_submitExpenseOk h now pid description amount category proofUrl
    | approveExpense sender pid idx transferOk =>
      simp only [run, approveExpense] at hr
      cases hmid : approveExpenseMid s sender pid idx with
      | error e2 => rw [hmid] at hr; simp at hr
      | ok m =>
        obtain ⟨mid, amt, rcpt⟩ := m
        rw [hmid] at hr
        cases transferOk with
        | false => simp at hr
        | true =>
          simp only [Except.ok.injEq, Prod.mk.injEq, if_pos, reduceCtorEq] at hr
          obtain ⟨ht, -, -⟩ := hr
          subst ht
          exact inv_approveExpenseMid h hmid
    | completeProject sender pid =>
      simp only [run] at hr
      rw [completeProject_eq_ok_iff] at hr
      obtain ⟨-, -, ht, -, -⟩ := hr
      subst ht
      exact inv_statusUpdate h pid ProjectStatus.Completed
    | cancelProject sender pid =>
      simp only [run] at hr
      rw [cancelProject_eq_ok_iff] at hr
      obtain ⟨-, -, ht, -, -⟩ := hr
      subst ht
      exact inv_statusUpdate h pid ProjectStatus.Cancelled
    | claimRefund sender pid transferOk =>
      simp only [run, claimRefund] at hr
      cases hmid : claimRefundMid s sender pid with
      | error e2 => rw [hmid] at hr; simp at hr
      | ok m =>
        obtain ⟨mid, amt⟩ := m
        rw [hmid] at hr
        cases transferOk with
        | false => simp at hr
        | true =>
          simp only [Except.ok.injEq, Prod.mk.injEq, if_pos, reduceCtorEq] at hr
          obtain ⟨ht, -, -⟩ := hr
          subst ht
          rw [claimRefundMid_eq_ok_iff] at hmid
          obtain ⟨-, -, -, -, -, hm⟩ := hmid
          subst hm
          exact ⟨h.1, h.2.1, rfl⟩
    | pause sender =>
      simp only [run, pause] at hr
      split at hr
      · simp at hr
      · split at hr
        · simp at hr
        · simp only [Except.ok.injEq, Prod.mk.injEq] at hr
          obtain ⟨ht, -, -⟩ := hr
          subst ht
          exact ⟨h.1, h.2.1, h.2.2⟩
    | unpause sender =>
      simp only [run, unpause] at hr
      split at hr
      · simp at hr
      · split at hr
        · simp at hr
        · simp only [Except.ok.injEq, Prod.mk.injEq] at hr
          obtain ⟨ht, -, -⟩ := hr
          subst ht
          exact ⟨h.1, h.2.1, h.2.2⟩
    | grantRole sender role account =>
      simp only [run, grantRole] at hr
      split at hr
      · simp at hr
      · simp only [Except.ok.injEq, Prod.mk.injEq] at hr
        obtain ⟨ht, -, -⟩ := hr
        subst ht
        exact inv_setRole h role account true
    | revokeRole sender role account =>
      simp only [run, revokeRole] at hr
      split at hr
      · simp at hr
      · simp only [Except.ok.injEq, Prod.mk.injEq] at hr
        obtain ⟨ht, -, -⟩ := hr
        subst ht
        exact inv_setRole h role account false
    | renounceRole sender role account =>
      simp only [run, renounceRole] at hr
      split at hr
      · simp at hr
      · simp only [Except.ok.injEq, Prod.mk.injEq] at hr
        obtain ⟨ht, -, -⟩ := hr
        subst ht
        exact inv_setRole h role sender false
    | grantProjectCreatorRole sender account =>
      simp only [run, grantProjectCreatorRole] at hr
      split at hr
      · simp at hr
      · simp only [Except.ok.injEq, Prod.mk.injEq] at hr
        obtain ⟨ht, -, -⟩ := hr
        subst ht
        exact inv_setRole h Role.creator account true

/-- Every reachable state satisfies the invariant. -/
theorem reachable_inv {s : CState} (h : Reachable s) : Inv s := by
  induction h with
  | init deployer hd => exact inv_initState deployer
  | step c hs h ih => exact inv_execCall c ih

/-! ### Monotonicity of the project counter and frozen terminal statuses -/

/-- `projectCount` never decreases: ids are assigned in strictly increasing
order and never reused. -/
theorem projectCount_mono (s : CState) (c : Call) :
    s.projectCount ≤ (execCall s c).projectCount := by
  unfold execCall
  cases hr : run s c with
  | error e => exact Nat.le_refl _
  | ok t =>
    obtain ⟨t, ev, r⟩ := t
    cases c with
    | createProject sender now title description goal dur =>
      simp only [run] at hr
      rw [createProject_eq_ok_iff] at hr
      obtain ⟨-, -, -, -, -, ht, -, -⟩ := hr
      subst ht
      exact Nat.le_succ _
    | contribute sender now value pid =>
      simp only [run] at hr
      rw [contribute_eq_ok_iff] at hr
      obtain ⟨-, -, -, -, -, -, -, ht, -, -⟩ := hr
      subst ht
      exact Nat.le_refl _
    | submitExpense sender now pid description amount category proofUrl =>
      simp only [run] at hr
      rw [submitExpense_eq_ok_iff] at hr
      obtain ⟨-, -, -, -, ht, -, -⟩ := hr
      subst ht
      exact Nat.le_refl _
    | approveExpense sender pid idx transferOk =>
      simp only [run, approveExpense] at hr
      cases hmid : approveExpenseMid s sender pid idx with
      | error e2 => rw [hmid] at hr; simp at hr
      | ok m =>
        obtain ⟨mid, amt, rcpt⟩ := m
        rw [hmid] at hr
        cases transferOk with
        | false => simp at hr
        | true =>
          simp only [Except.ok.injEq, Prod.mk.injEq, if_pos, reduceCtorEq] at hr
          obtain ⟨ht, -, -⟩ := hr
          subst ht
          rw [approveExpenseMid_eq_ok_iff] at hmid
          obtain ⟨-, -, e, -, -, -, -, hm⟩ := hmid
          subst hm
          exact Nat.le_refl _
    | completeProject sender pid =>
      simp only [run] at hr
      rw [completeProject_eq_ok_iff] at hr
      obtain ⟨-, -, ht, -, -⟩ := hr
      subst ht
      exact Nat.le_refl _
    | cancelProject sender pid =>
      simp only [run] at hr
      rw [cancelProject_eq_ok_iff] at hr
      obtain ⟨-, -, ht, -, -⟩ := hr
      subst ht
      exact Nat.le_refl _
    | claimRefund sender pid transferOk =>
      simp only [run, claimRefund] at hr
      cases hmid : claimRefundMid s sender pid with
      | error e2 => rw [hmid] at hr; simp at hr
      | ok m =>
        obtain ⟨mid, amt⟩ := m
        rw [hmid] at hr
        cases transferOk with
        | false => simp at hr
        | true =>
          simp only [Except.ok.injEq, Prod.mk.injEq, if_pos, reduceCtorEq] at hr
          obtain ⟨ht, -, -⟩ := hr
          subst ht
          rw [claimRefundMid_eq_ok_iff] at hmid
          obtain ⟨-, -, -, -, -, hm⟩ := hmid
          subst hm
          exact Nat.le_refl _
    | pause sender =>
      simp only [run, pause] at hr
      split at hr
      · simp at hr
      · split at hr
        · simp at hr
        · simp only [Except.ok.injEq, Prod.mk.injEq] at hr
          obtain ⟨ht, -, -⟩ := hr
          subst ht
          exact Nat.le_refl _
    | unpause sender =>
      simp only [run, unpause] at hr
      split at hr
      · simp at hr
      · split at hr
        · simp at hr
        · simp only [Except.ok.injEq, Prod.mk.injEq] at hr
          obtain ⟨ht, -, -⟩ := hr
          subst ht
          exact Nat.le_refl _
    | grantRole sender role account =>
      simp only [run, grantRole] at hr
      split at hr
      · simp at hr
      · simp only [Except.ok.injEq, Prod.mk.injEq] at hr
        obtain ⟨ht, -, -⟩ := hr
        subst ht
        cases role <;> exact Nat.le_refl _
    | revokeRole sender role account =>
      simp only [run, revokeRole] at hr
      split at hr
      · simp at hr
      · simp only [Except.ok.injEq, Prod.mk.injEq] at hr
        obtain ⟨ht, -, -⟩ := hr
        subst ht
        cases role <;> exact Nat.le_refl _
    | renounceRole sender role account =>
      simp only [run, renounceRole] at hr
      split at hr
      · simp at hr
      · simp only [Except.ok.injEq, Prod.mk.injEq] at hr
        obtain ⟨ht, -, -⟩ := hr
        subst ht
        cases role <;> exact Nat.le_refl _
    | grantProjectCreatorRole sender account =>
      simp only [run, grantProjectCreatorRole] at hr
      split at hr
      · simp at hr
      · simp only [Except.ok.injEq, Prod.mk.injEq] at hr
        obtain ⟨ht, -, -⟩ := hr
        subst ht
        exact Nat.le_refl _

/-- A created project (`pid < projectCount`) whose status left `Active`
keeps that status under every further call, and stays created. -/
theorem statusFrozen {s : CState} (c : Call) {pid : Nat}
    (hlt : pid < s.projectCount)
    (hterm : (s.projects pid).status ≠ ProjectStatus.Active) :
    ((execCall s c).projects pid).status = (s.projects pid).status ∧
    pid < (execCall s c).projectCount := by
  have hcount := projectCount_mono s c
  refine ⟨?_, by omega⟩
  unfold execCall at hcount ⊢
  cases hr : run s c with
  | error e => rfl
  | ok t =>
    obtain ⟨t, ev, r⟩ := t
    cases c with
    | createProject sender now title description goal dur =>
      simp only [run] at hr
      rw [createProject_eq_ok_iff] at hr
      obtain ⟨-, -, -, -, -, ht, -, -⟩ := hr
      subst ht
      have hi : pid ≠ s.projectCount := by omega
      simp [createProjectOk, hi]
    | contribute sender now value pid2 =>
      simp only [run] at hr
      rw [contribute_eq_ok_iff] at hr
      obtain ⟨-, -, -, -, -, -, -, ht, -, -⟩ := hr
      subst ht
      by_cases hi : pid = pid2
      · subst hi; simp [contributeOk]
      · simp [contributeOk, hi]
    | submitExpense sender now pid2 description amount category proofUrl =>
      simp only [run] at hr
      rw [submitExpense_eq_ok_iff] at hr
      obtain ⟨-, -, -, -, ht, -, -⟩ := hr
      subst ht
      rfl
    | approveExpense sender pid2 idx transferOk =>
      simp only [run, approveExpense] at hr
      cases hmid : approveExpenseMid s sender pid2 idx with
      | error e2 => rw [hmid] at hr; simp at hr
      | ok m =>
        obtain ⟨mid, amt, rcpt⟩ := m
        rw [hmid] at hr
        cases transferOk with
        | false => simp at hr
        | true =>
          simp only [Except.ok.injEq, Prod.mk.injEq, if_pos, reduceCtorEq] at hr
          obtain ⟨ht, -, -⟩ := hr
          subst ht
          rw [approveExpenseMid_eq_ok_iff] at hmid
          obtain ⟨-, -, e, -, -, -, -, hm⟩ := hmid
          subst hm
          by_cases hi : pid = pid2
          · subst hi; simp
          · simp [hi]
    | completeProject sender pid2 =>
      simp only [run] at hr
      rw [completeProject_eq_ok_iff] at hr
      obtain ⟨-, hact, ht, -, -⟩ := hr
      subst ht
      by_cases hi : pid = pid2
      · subst hi; exact absurd hact hterm
      · simp [hi]
    | cancelProject sender pid2 =>
      simp only [run] at hr
      rw [cancelProject_eq_ok_iff] at hr
      obtain ⟨-, hact, ht, -, -⟩ := hr
      subst ht
      by_cases hi : pid = pid2
      · subst hi; exact absurd hact hterm
      · simp [hi]
    | claimRefund sender pid2 transferOk =>
      simp only [run, claimRefund] at hr
      cases hmid : claimRefundMid s sender pid2 with
      | error e2 => rw [hmid] at hr; simp at hr
      | ok m =>
        obtain ⟨mid, amt⟩ := m
        rw [hmid] at hr
        cases transferOk with
        | false => simp at hr
        | true =>
          simp only [Except.ok.injEq, Prod.mk.injEq, if_pos, reduceCtorEq] at hr
          obtain ⟨ht, -, -⟩ := hr
          subst ht
          rw [claimRefundMid_eq_ok_iff] at hmid
          obtain ⟨-, -, -, -, -, hm⟩ := hmid
          subst hm
          rfl
    | pause sender =>
      simp only [run, pause] at hr
      split at hr
      · simp at hr
      · split at hr
        · simp at hr
        · simp only [Except.ok.injEq, Prod.mk.injEq] at hr
          obtain ⟨ht, -, -⟩ := hr
          subst ht
          rfl
    | unpause sender =>
      simp only [run, unpause] at hr
      split at hr
      · simp at hr
      · split at hr
        · simp at hr
        · simp only [Except.ok.injEq, Prod.mk.injEq] at hr
          obtain ⟨ht, -, -⟩ := hr
          subst ht
          rfl
    | grantRole sender role account =>
      simp only [run, grantRole] at hr
      split at hr
      · simp at hr
      · simp only [Except.ok.injEq, Prod.mk.injEq] at hr
        obtain ⟨ht, -, -⟩ := hr
        subst ht
        cases role <;> rfl
    | revokeRole sender role account =>
      simp only [run, revokeRole] at hr
      split at hr
      · simp at hr
      · simp only [Except.ok.injEq, Prod.mk.injEq] at hr
        obtain ⟨ht, -, -⟩ := hr
        subst ht
        cases role <;> rfl
    | renounceRole sender role account =>
      simp only [run, renounceRole] at hr
      split at hr
      · simp at hr
      · simp only [Except.ok.injEq, Prod.mk.injEq] at hr
        obtain ⟨ht, -, -⟩ := hr
        subst ht
        cases role <;> rfl
    | grantProjectCreatorRole sender account =>
      simp only [run, grantProjectCreatorRole] at hr
      split at hr
      · simp at hr
      · simp only [Except.ok.injEq, Prod.mk.injEq] at hr
        obtain ⟨ht, -, -⟩ := hr
        subst ht
        rfl

/-! ### Concrete scenario states used by witnesses and counterexamples -/

/-- The deployer (account 1) creates two projects with goal
`8 * MINIMUM_CONTRIBUTION`; account 2 fills project 0 to its goal and puts
`2 * MINIMUM_CONTRIBUTION` into project 1; the creator submits two
expenses (`5 *` and `4 * MINIMUM_CONTRIBUTION`) on project 0; the admin
cancels project 1. -/
def SBase : CState :=
  execCall (execCall (execCall (execCall (execCall (execCall (execCall (initState 1)
    (.createProject 1 0 "p0" "d0" (8 * MINIMUM_CONTRIBUTION) 10))
    (.createProject 1 0 "p1" "d1" (8 * MINIMUM_CONTRIBUTION) 10))
    (.contribute 2 1 (8 * MINIMUM_CONTRIBUTION) 0))
    (.contribute 2 1 (2 * MINIMUM_CONTRIBUTION) 1))
    (.submitExpense 1 2 0 "e0" (5 * MINIMUM_CONTRIBUTION) ExpenseCategory.Development "u0"))
    (.submitExpense 1 3 0 "e1" (4 * MINIMUM_CONTRIBUTION) ExpenseCategory.Marketing "u1"))
    (.cancelProject 1 1)

theorem reachable_SBase : Reachable SBase :=
  Reachable.step _ (by decide) (Reachable.step _ (by decide) (Reachable.step _ (by decide)
    (Reachable.step _ (by decide) (Reachable.step _ (by decide) (Reachable.step _ (by decide)
      (Reachable.step _ (by decide) (Reachable.init 1 (by decide))))))))

/-- `SBase` after the admin approves the first pending expense. -/
def SApr1 : CState := execCall SBase (.approveExpense 1 0 0 true)

/-- `SApr1` after the admin approves the second pending expense. -/
def SApr2 : CState := execCall SApr1 (.approveExpense 1 0 1 true)

theorem reachable_SApr2 : Reachable SApr2 :=
  Reachable.step _ (by decide) (Reachable.step _ (by decide) reachable_SBase)

/-- `SBase` with the system paused by the admin. -/
def SPaused : CState := execCall SBase (.pause 1)

/-- The state the contract is in while `approveExpense`'s outbound
transfer is executing (pre-state if the preconditions fail). -/
def midOfApprove (s : CState) (sender pid idx : Nat) : CState :=
  match approveExpenseMid s sender pid idx with
  | .ok (m, _, _) => m
  | .error _ => s

/-- Admin cancels the not-yet-created project id 0 (its default storage
slot has status `Active`, so the guard passes). -/
def SPhantomCancel : CState := execCall (initState 1) (.cancelProject 1 0)

/-- After `SPhantomCancel`, the next `createProject` assigns id 0 and
overwrites the cancelled slot. -/
def SPhantomCreate : CState :=
  execCall SPhantomCancel (.createProject 1 0 "t" "d" 100 10)

/-- A single freshly created project (id 0, creator 1). -/
def SC9 : CState := execCall (initState 1) (.createProject 1 0 "t" "d" 100 10)

/-! ### The claims -/

/-- C1: for every reachable state (hence every sequence of `contribute`
calls on any project) the sum of accepted contributions `currentAmount`
never exceeds `goalAmount`, and a `contribute` whose value would push
`currentAmount` past `goalAmount` reverts, leaving the state — including
`currentAmount` and the per-contributor aggregate — unchanged. -/
theorem contribution_sum_bounded_by_goal {s : CState} (hs : Reachable s) :
    (∀ pid, (s.projects pid).currentAmount ≤ (s.projects pid).goalAmount) ∧
    (∀ sender now value pid,
      (s.projects pid).goalAmount < (s.projects pid).currentAmount + value →
      (∃ e, run s (.contribute sender now value pid) = .error e) ∧
      execCall s (.contribute sender now value pid) = s) := by
  have hInv := reachable_inv hs
  refine ⟨hInv.1, ?_⟩
  intro sender now value pid hover
  cases hc : run s (.contribute sender now value pid) with
  | error e => exact ⟨⟨e, rfl⟩, by unfold execCall; rw [hc]⟩
  | ok t =>
    obtain ⟨t, ev, r⟩ := t
    exfalso
    simp only [run] at hc
    rw [contribute_eq_ok_iff] at hc
    obtain ⟨-, -, -, -, -, -, hg, -, -, -⟩ := hc
    omega

theorem contribution_sum_bounded_by_goal_witness :
    ((SBase.projects 0).currentAmount ≤ (SBase.projects 0).goalAmount) ∧
    (∃ e, run SBase (.contribute 2 4 MINIMUM_CONTRIBUTION 0) = .error e) := by
  have h := contribution_sum_bounded_by_goal reachable_SBase
  exact ⟨h.1 0, (h.2 2 4 MINIMUM_CONTRIBUTION 0 (by decide)).1⟩

/-- C8: under an unpaused system and an authorized creator,
`createProject` succeeds iff `goalAmount > 0` and the duration lies in
[1, 90] days; on success it assigns id `projectCount` (incrementing the
counter, which no call ever decreases — ids are strictly increasing and
never reused), sets status `Active`, `deadline = now + duration`, and
records the caller as creator. -/
theorem createProject_spec (s : CState) (sender now : Nat)
    (title description : String) (goal dur : Nat)
    (hp : s.paused = false) (hcr : s.creators sender = true) :
    ((createProject s sender now title description goal dur).isOk = true ↔
      (0 < goal ∧ 1 ≤ dur ∧ dur ≤ 90)) ∧
    (∀ t ev r, createProject s sender now title description goal dur = .ok (t, ev, r) →
      t.projectCount = s.projectCount + 1 ∧
      (t.projects s.projectCount).status = ProjectStatus.Active ∧
      (t.projects s.projectCount).deadline = now + dur * oneDay ∧
      (t.projects s.projectCount).creator = sender ∧
      (t.projects s.projectCount).goalAmount = goal ∧
      (t.projects s.projectCount).createdAt = now ∧
      ev = [Event.ProjectCreated s.projectCount title sender goal (now + dur * oneDay)] ∧
      r = none) ∧
    (∀ c : Call, s.projectCount ≤ (execCall s c).projectCount) := by
  refine ⟨?_, ?_, fun c => projectCount_mono s c⟩
  · rw [except_isOk_iff]
    constructor
    · rintro ⟨⟨t, ev, r⟩, hok⟩
      rw [createProject_eq_ok_iff] at hok
      exact ⟨hok.2.2.1, hok.2.2.2.1, hok.2.2.2.2.1⟩
    · rintro ⟨hg, hd1, hd2⟩
      exact ⟨(createProjectOk s sender now title description goal dur,
        [Event.ProjectCreated s.projectCount title sender goal (now + dur * oneDay)], none),
        (createProject_eq_ok_iff s sender now title description goal dur _ _ _).mpr
          ⟨hp, hcr, hg, hd1, hd2, rfl, rfl, rfl⟩⟩
  · intro t ev r hok
    rw [createProject_eq_ok_iff] at hok
    obtain ⟨-, -, -, -, -, ht, hev, hr⟩ := hok
    subst ht
    refine ⟨rfl, ?_, ?_, ?_, ?_, ?_, hev, hr⟩ <;> simp [createProjectOk]

theorem createProject_spec_witness :
    ((createProject (initState 1) 1 0 "t" "d" 100 10).isOk = true ↔
      (0 < 100 ∧ 1 ≤ 10 ∧ 10 ≤ 90)) ∧
    (initState 1).projectCount ≤
      (execCall (initState 1) (.createProject 1 0 "t" "d" 100 10)).projectCount := by
  have h := createProject_spec (initState 1) 1 0 "t" "d" 100 10 rfl (by decide)
  exact ⟨h.1, h.2.2 (.createProject 1 0 "t" "d" 100 10)⟩

/-- C9 counterexample: a successful `createProject` call and a successful
`submitExpense` call both return no ABI data at all (the functions have no
`returns` clause), so neither returns the new projectId (here 0) nor the
new expense index (here 0) to the caller. -/
theorem create_submit_return_no_data :
    (run (initState 1) (.createProject 1 0 "t" "d" 100 10)).isOk = true ∧
    retData (run (initState 1) (.createProject 1 0 "t" "d" 100 10)) ≠ some 0 ∧
    (run SC9 (.submitExpense 1 0 0 "e" 0 ExpenseCategory.Other "u")).isOk = true ∧
    retData (run SC9 (.submitExpense 1 0 0 "e" 0 ExpenseCategory.Other "u")) ≠ some 0 := by
  exact ⟨rfl, by decide, rfl, by decide⟩

/-- C9 amended: `createProject` and `submitExpense` return nothing to the
caller (`retData = none`); the assigned projectId and the appended expense
index are reported only through the emitted `ProjectCreated` and
`ExpenseSubmitted` events. -/
theorem ids_reported_via_events (s : CState) :
    (∀ sender now title description goal dur,
      (createProject s sender now title description goal dur).isOk = true →
      retData (createProject s sender now title description goal dur) = none ∧
      eventsOf (createProject s sender now title description goal dur) =
        [Event.ProjectCreated s.projectCount title sender goal (now + dur * oneDay)]) ∧
    (∀ sender now pid description amount category proofUrl,
      (submitExpense s sender now pid description amount category proofUrl).isOk = true →
      retData (submitExpense s sender now pid description amount category proofUrl) = none ∧
      eventsOf (submitExpense s sender now pid description amount category proofUrl) =
        [Event.ExpenseSubmitted pid (s.projectExpenses pid).length description amount]) := by
  constructor
  · intro sender now title description goal dur hok
    rw [except_isOk_iff] at hok
    obtain ⟨⟨t, ev, r⟩, hok⟩ := hok
    have h2 := hok
    rw [createProject_eq_ok_iff] at h2
    obtain ⟨-, -, -, -, -, -, hev, hr⟩ := h2
    rw [hok]
    subst hev; subst hr
    exact ⟨rfl, rfl⟩
  · intro sender now pid description amount category proofUrl hok
    rw [except_isOk_iff] at hok
    obtain ⟨⟨t, ev, r⟩, hok⟩ := hok
    have h2 := hok
    rw [submitExpense_eq_ok_iff] at h2
    obtain ⟨-, -, -, -, -, hev, hr⟩ := h2
    rw [hok]
    subst hev; subst hr
    exact ⟨rfl, rfl⟩

theorem ids_reported_via_events_witness :
    (retData (createProject (initState 1) 1 0 "t" "d" 100 10) = none ∧
     eventsOf (createProject (initState 1) 1 0 "t" "d" 100 10) =
       [Event.ProjectCreated (initState 1).projectCount "t" 1 100 (0 + 10 * oneDay)]) ∧
    (retData (submitExpense SC9 1 0 0 "e" 0 ExpenseCategory.Other "u") = none ∧
     eventsOf (submitExpense SC9 1 0 0 "e" 0 ExpenseCategory.Other "u") =
       [Event.ExpenseSubmitted 0 (SC9.projectExpenses 0).length "e" 0]) :=
  ⟨(ids_reported_via_events (initState 1)).1 1 0 "t" "d" 100 10 rfl,
   (ids_reported_via_events SC9).2 1 0 0 "e" 0 ExpenseCategory.Other "u" rfl⟩

/-- C10: an `approveExpense` call on a project whose status is `Cancelled`
reverts with `IllegalStateTransition` and changes no state, regardless of
the caller being Admin and of the target expense's existence or approval
state: after cancellation no expense can ever be approved or paid out. -/
theorem approveExpense_rejects_cancelled (s : CState) (sender pid idx : Nat)
    (transferOk : Bool) (hadm : s.admins sender = true)
    (hst : (s.projects pid).status = ProjectStatus.Cancelled) :
    run s (.approveExpense sender pid idx transferOk) = .error .IllegalStateTransition ∧
    execCall s (.approveExpense sender pid idx transferOk) = s := by
  have h1 : run s (.approveExpense sender pid idx transferOk) =
      .error .IllegalStateTransition := by
    simp [run, approveExpense, approveExpenseMid, hadm, hst]
  exact ⟨h1, by unfold execCall; rw [h1]⟩

theorem approveExpense_rejects_cancelled_witness :
    run SBase (.approveExpense 1 1 0 true) = .error .IllegalStateTransition ∧
    execCall SBase (.approveExpense 1 1 0 true) = SBase :=
  approveExpense_rejects_cancelled SBase 1 1 0 true (by decide) (by decide)

/-- The state the contract is in while `claimRefund`'s outbound transfer
is executing (pre-state if the preconditions fail). -/
def midOfRefund (s : CState) (sender pid : Nat) : CState :=
  match claimRefundMid s sender pid with
  | .ok (m, _) => m
  | .error _ => s

/-- C5: `claimRefund` succeeds exactly when the project is `Cancelled`,
the caller's recorded cumulative contribution is nonzero, the caller has
not already claimed (and the lock is free and the transfer goes through);
on success it marks the (project, contributor) pair claimed and transfers
exactly the full cumulative contribution, and any repeat claim by the same
contributor on the same project fails with `AlreadyClaimed`. -/
theorem claimRefund_spec (s : CState) (sender pid : Nat) (transferOk : Bool) :
    ((run s (.claimRefund sender pid transferOk)).isOk = true ↔
      (s.locked = false ∧ (s.projects pid).status = ProjectStatus.Cancelled ∧
       0 < s.contributions pid sender ∧ s.refundClaimed pid sender = false ∧
       transferOk = true)) ∧
    (∀ m amt, claimRefundMid s sender pid = .ok (m, amt) →
      amt = s.contributions pid sender ∧ m.refundClaimed pid sender = true) ∧
    (∀ t ev r, run s (.claimRefund sender pid transferOk) = .ok (t, ev, r) →
      t.refundClaimed pid sender = true ∧
      ev = [Event.RefundClaimed pid sender (s.contributions pid sender)] ∧
      (∀ transferOk2, run t (.claimRefund sender pid transferOk2) =
        .error Err.AlreadyClaimed)) := by
  refine ⟨?_, ?_, ?_⟩
  · rw [except_isOk_iff]
    constructor
    · rintro ⟨⟨t, ev, r⟩, hok⟩
      simp only [run, claimRefund] at hok
      cases hmid : claimRefundMid s sender pid with
      | error e => rw [hmid] at hok; simp at hok
      | ok m =>
        obtain ⟨m, amt⟩ := m
        rw [hmid] at hok
        cases transferOk with
        | false => simp at hok
        | true =>
          rw [claimRefundMid_eq_ok_iff] at hmid
          exact ⟨hmid.1, hmid.2.1, hmid.2.2.1, hmid.2.2.2.1, rfl⟩
    · rintro ⟨hl, hst, hc, hrc, hok⟩
      subst hok
      refine ⟨({ s with
          locked := false
          refundClaimed := fun i a =>
            if i = pid ∧ a = sender then true else s.refundClaimed i a },
        [Event.RefundClaimed pid sender (s.contributions pid sender)], none), ?_⟩
      simp only [run, claimRefund]
      rw [(claimRefundMid_eq_ok_iff s sender pid _ _).mpr
        ⟨hl, hst, hc, hrc, rfl, rfl⟩]
      rfl
  · intro m amt hmid
    rw [claimRefundMid_eq_ok_iff] at hmid
    obtain ⟨-, -, -, -, hamt, hm⟩ := hmid
    subst hm
    exact ⟨hamt, by simp⟩
  · intro t ev r hok
    simp only [run, claimRefund] at hok
    cases hmid : claimRefundMid s sender pid with
    | error e => rw [hmid] at hok; simp at hok
    | ok m =>
      obtain ⟨m, amt⟩ := m
      rw [hmid] at hok
      cases transferOk with
      | false => simp at hok
      | true =>
        simp only [Except.ok.injEq, Prod.mk.injEq, if_pos, reduceCtorEq] at hok
        obtain ⟨ht, hev, hr⟩ := hok
        rw [claimRefundMid_eq_ok_iff] at hmid
        obtain ⟨hl, hst, hc, hrc, hamt, hm⟩ := hmid
        subst hm
        subst ht
        refine ⟨by simp, by rw [hev.symm, hamt], ?_⟩
        intro transferOk2
        simp only [run, claimRefund, claimRefundMid]
        simp [hst, Nat.pos_iff_ne_zero.mp hc]

theorem claimRefund_spec_witness :
    (run SBase (.claimRefund 2 1 true)).isOk = true ∧
    (∀ transferOk2,
      run (execCall SBase (.claimRefund 2 1 true)) (.claimRefund 2 1 transferOk2) =
        .error Err.AlreadyClaimed) := by
  have h := claimRefund_spec SBase 2 1 true
  refine ⟨h.1.mpr ⟨rfl, rfl, by decide, rfl, rfl⟩, ?_⟩
  exact (h.2.2 (execCall SBase (.claimRefund 2 1 true))
    [Event.RefundClaimed 1 2 (SBase.contributions 1 2)] none rfl).2.2

/-- C6: in `approveExpense` and `claimRefund` the idempotency flag
(`approved := true`, `refundClaimed := true`) and the amount bookkeeping
are already written in the state that the outbound transfer executes
against, a failing transfer reverts the whole call with `TransferFailed`,
and any reverting call leaves the observable state exactly as it was. -/
theorem flags_set_before_transfer (s : CState) :
    (∀ sender pid idx t amt rcpt,
      approveExpenseMid s sender pid idx = .ok (t, amt, rcpt) →
      ((t.projectExpenses pid).get? idx).map Expense.approved = some true ∧
      (t.projects pid).totalExpenses = (s.projects pid).totalExpenses + amt ∧
      approveExpense s sender pid idx false = .error Err.TransferFailed) ∧
    (∀ sender pid m amt, claimRefundMid s sender pid = .ok (m, amt) →
      m.refundClaimed pid sender = true ∧
      claimRefund s sender pid false = .error Err.TransferFailed) ∧
    (∀ (c : Call) (e : Err), run s c = .error e → execCall s c = s) := by
  refine ⟨?_, ?_, ?_⟩
  · intro sender pid idx t amt rcpt hmid
    have hmid2 := hmid
    rw [approveExpenseMid_eq_ok_iff] at hmid2
    obtain ⟨-, -, e, hget, -, hamt, -, ht⟩ := hmid2
    subst ht
    have hlt : idx < (s.projectExpenses pid).length := by
      rw [List.get?_eq_getElem?] at hget
      exact (List.getElem?_eq_some_iff.mp hget).1
    refine ⟨?_, by simp [hamt], ?_⟩
    · simp [List.get?_eq_getElem?, List.getElem?_set_self hlt]
    · unfold approveExpense
      rw [hmid]
      rfl
  · intro sender pid m amt hmid
    have hmid2 := hmid
    rw [claimRefundMid_eq_ok_iff] at hmid2
    obtain ⟨-, -, -, -, -, hm⟩ := hmid2
    subst hm
    refine ⟨by simp, ?_⟩
    unfold claimRefund
    rw [hmid]
    rfl
  · intro c e h
    unfold execCall
    rw [h]

theorem flags_set_before_transfer_witness :
    ((((midOfApprove SBase 1 0 0).projectExpenses 0).get? 0).map Expense.approved =
        some true ∧
     approveExpense SBase 1 0 0 false = .error Err.TransferFailed) ∧
    ((midOfRefund SBase 2 1).refundClaimed 1 2 = true ∧
     claimRefund SBase 2 1 false = .error Err.TransferFailed) ∧
    execCall SBase (.contribute 2 4 MINIMUM_CONTRIBUTION 0) = SBase := by
  have h := flags_set_before_transfer SBase
  refine ⟨⟨?_, ?_⟩, ⟨?_, ?_⟩, ?_⟩
  · exact (h.1 1 0 0 (midOfApprove SBase 1 0 0) (5 * MINIMUM_CONTRIBUTION) 1 rfl).1
  · exact (h.1 1 0 0 (midOfApprove SBase 1 0 0) (5 * MINIMUM_CONTRIBUTION) 1 rfl).2.2
  · exact (h.2.1 2 1 (midOfRefund SBase 2 1) (2 * MINIMUM_CONTRIBUTION) rfl).1
  · exact (h.2.1 2 1 (midOfRefund SBase 2 1) (2 * MINIMUM_CONTRIBUTION) rfl).2
  · exact h.2.2 (.contribute 2 4 MINIMUM_CONTRIBUTION 0) Err.InvariantViolation rfl

/-- C7: while the system is paused, `createProject`, `contribute` and
`submitExpense` fail with `SystemPaused`, while `approveExpense`,
`claimRefund`, `completeProject` and `cancelProject` ignore the pause flag
and succeed whenever their own preconditions hold. -/
theorem pause_gating (s : CState) (hp : s.paused = true) :
    (∀ sender now title description goal dur,
      createProject s sender now title description goal dur = .error Err.SystemPaused) ∧
    (∀ sender now value pid,
      contribute s sender now value pid = .error Err.SystemPaused) ∧
    (∀ sender now pid description amount category proofUrl,
      submitExpense s sender now pid description amount category proofUrl =
        .error Err.SystemPaused) ∧
    (∀ sender pid idx (e : Expense), s.admins sender = true →
      (s.projects pid).status ≠ ProjectStatus.Cancelled →
      (s.projectExpenses pid).get? idx = some e → e.approved = false →
      (approveExpense s sender pid idx true).isOk = true) ∧
    (∀ sender pid, s.locked = false →
      (s.projects pid).status = ProjectStatus.Cancelled →
      0 < s.contributions pid sender → s.refundClaimed pid sender = false →
      (claimRefund s sender pid true).isOk = true) ∧
    (∀ sender pid, s.admins sender = true →
      (s.projects pid).status = ProjectStatus.Active →
      (completeProject s sender pid).isOk = true) ∧
    (∀ sender pid, s.admins sender = true →
      (s.projects pid).status = ProjectStatus.Active →
      (cancelProject s sender pid).isOk = true) := by
  refine ⟨?_, ?_, ?_, ?_, ?_, ?_, ?_⟩
  · intro sender now title description goal dur
    simp [createProject, hp]
  · intro sender now value pid
    simp [contribute, hp]
  · intro sender now pid description amount category proofUrl
    simp [submitExpense, hp]
  · intro sender pid idx e hadm hst hget happ
    unfold approveExpense
    rw [(approveExpenseMid_eq_ok_iff s sender pid idx _ _ _).mpr
      ⟨hadm, hst, e, hget, happ, rfl, rfl, rfl⟩]
    rfl
  · intro sender pid hl hst hc hrc
    unfold claimRefund
    rw [(claimRefundMid_eq_ok_iff s sender pid _ _).mpr
      ⟨hl, hst, hc, hrc, rfl, rfl⟩]
    rfl
  · intro sender pid hadm hst
    rw [except_isOk_iff]
    exact ⟨_, (completeProject_eq_ok_iff s sender pid _ _ _).mpr
      ⟨hadm, hst, rfl, rfl, rfl⟩⟩
  · intro sender pid hadm hst
    rw [except_isOk_iff]
    exact ⟨_, (cancelProject_eq_ok_iff s sender pid _ _ _).mpr
      ⟨hadm, hst, rfl, rfl, rfl⟩⟩

theorem pause_gating_witness :
    createProject SPaused 1 5 "x" "y" 100 10 = .error Err.SystemPaused ∧
    contribute SPaused 2 5 MINIMUM_CONTRIBUTION 0 = .error Err.SystemPaused ∧
    submitExpense SPaused 1 5 0 "e" 0 ExpenseCategory.Other "u" =
      .error Err.SystemPaused ∧
    (approveExpense SPaused 1 0 0 true).isOk = true ∧
    (claimRefund SPaused 2 1 true).isOk = true ∧
    (completeProject SPaused 1 0).isOk = true ∧
    (cancelProject SPaused 1 0).isOk = true := by
  have h := pause_gating SPaused rfl
  exact ⟨h.1 1 5 "x" "y" 100 10, h.2.1 2 5 MINIMUM_CONTRIBUTION 0,
    h.2.2.1 1 5 0 "e" 0 ExpenseCategory.Other "u",
    h.2.2.2.1 1 0 0
      { description := "e0", amount := 5 * MINIMUM_CONTRIBUTION,
        category := ExpenseCategory.Development, timestamp := 2,
        approved := false, proofUrl := "u0" }
      (by decide) (by decide) rfl rfl,
    h.2.2.2.2.1 2 1 rfl (by decide) (by decide) rfl,
    h.2.2.2.2.2.1 1 0 (by decide) (by decide),
    h.2.2.2.2.2.2 1 0 (by decide) (by decide)⟩

/-- C2 counterexample: with two pending unapproved expenses
(`5 *` and `4 * MINIMUM_CONTRIBUTION`) submitted while
`currentAmount = 8 * MINIMUM_CONTRIBUTION`, both approvals succeed — the
second successful `approveExpense` happens on a reachable state and leaves
`totalExpenses = 9 * MINIMUM_CONTRIBUTION > currentAmount`. -/
theorem totalExpenses_can_exceed_currentAmount :
    Reachable SApr2 ∧
    (run SApr1 (.approveExpense 1 0 1 true)).isOk = true ∧
    (SApr2.projects 0).currentAmount < (SApr2.projects 0).totalExpenses :=
  ⟨reachable_SApr2, rfl, by decide⟩

/-- C2 amended: after a successful `approveExpense` the bound
`totalExpenses ≤ currentAmount` holds provided the approved expense still
fits at approval time (`totalExpenses + amount ≤ currentAmount` just
before the call, which is what submission checked); approval itself never
re-checks, so with several pending expenses the bound can fail. -/
theorem approveExpense_bound_when_fits {s : CState} {sender pid idx : Nat}
    {transferOk : Bool} {t : CState} {ev : List Event} {r : Option Nat}
    (hr : run s (.approveExpense sender pid idx transferOk) = .ok (t, ev, r))
    (hfit : ∀ e : Expense, (s.projectExpenses pid).get? idx = some e →
      (s.projects pid).totalExpenses + e.amount ≤ (s.projects pid).currentAmount) :
    (t.projects pid).totalExpenses ≤ (t.projects pid).currentAmount := by
  simp only [run, approveExpense] at hr
  cases hmid : approveExpenseMid s sender pid idx with
  | error e2 => rw [hmid] at hr; simp at hr
  | ok m =>
    obtain ⟨mid, amt, rcpt⟩ := m
    rw [hmid] at hr
    cases transferOk with
    | false => simp at hr
    | true =>
      simp only [Except.ok.injEq, Prod.mk.injEq, if_pos, reduceCtorEq] at hr
      obtain ⟨ht, -, -⟩ := hr
      subst ht
      rw [approveExpenseMid_eq_ok_iff] at hmid
      obtain ⟨-, -, e, hget, -, -, -, hm⟩ := hmid
      subst hm
      simpa using hfit e hget

theorem approveExpense_bound_when_fits_witness :
    ((execCall SBase (.approveExpense 1 0 0 true)).projects 0).totalExpenses ≤
      ((execCall SBase (.approveExpense 1 0 0 true)).projects 0).currentAmount := by
  have hr : run SBase (.approveExpense 1 0 0 true) =
      .ok (execCall SBase (.approveExpense 1 0 0 true),
        [Event.ExpenseApproved 0 0, Event.FundsReleased 0 (5 * MINIMUM_CONTRIBUTION)],
        none) := rfl
  refine approveExpense_bound_when_fits hr ?_
  intro e he
  injection he with he2
  subst he2
  decide

/-- C3 counterexample: `approveExpense` carries no `nonReentrant`
modifier: starting from reachable state `SBase`, while the outbound
transfer of `approveExpense(0, 0)` is executing (state
`midOfApprove SBase 1 0 0`), a nested `approveExpense` on the second
pending expense of the same project succeeds, instead of every nested
protected call failing with `ReentrancyDetected`. -/
theorem approveExpense_reentry_not_blocked :
    Reachable SBase ∧
    (approveExpenseMid SBase 1 0 0).isOk = true ∧
    (run (midOfApprove SBase 1 0 0) (.approveExpense 1 0 1 true)).isOk = true :=
  ⟨reachable_SBase, rfl, rfl⟩

/-- C3 amended: the reentrancy lock protects exactly `contribute` and
`claimRefund`: while `claimRefund`'s transfer is pending the lock is held,
so a nested `contribute` (on an unpaused system) or `claimRefund` fails
with `ReentrancyDetected`; `approveExpense` neither acquires nor checks
the lock — the state its transfer runs against keeps the caller's lock
value, so nested entry during `approveExpense` is not prevented by the
lock. -/
theorem reentrancy_lock_scope :
    (∀ (s : CState) (sender pid : Nat) (m : CState) (amt : Nat),
      s.paused = false →
      claimRefundMid s sender pid = .ok (m, amt) →
      m.locked = true ∧
      (∀ s2 n2 v2 p2, run m (.contribute s2 n2 v2 p2) = .error Err.ReentrancyDetected) ∧
      (∀ s2 p2 ok2, run m (.claimRefund s2 p2 ok2) = .error Err.ReentrancyDetected)) ∧
    (∀ (s : CState) (sender pid idx : Nat) (t : CState) (amt rcpt : Nat),
      approveExpenseMid s sender pid idx = .ok (t, amt, rcpt) →
      t.locked = s.locked) := by
  constructor
  · intro s sender pid m amt hp hmid
    rw [claimRefundMid_eq_ok_iff] at hmid
    obtain ⟨-, -, -, -, -, hm⟩ := hmid
    subst hm
    refine ⟨rfl, ?_, ?_⟩
    · intro s2 n2 v2 p2
      simp [run, contribute, hp]
    · intro s2 p2 ok2
      simp [run, claimRefund, claimRefundMid]
  · intro s sender pid idx t amt rcpt hmid
    rw [approveExpenseMid_eq_ok_iff] at hmid
    obtain ⟨-, -, e, -, -, -, -, ht⟩ := hmid
    subst ht
    rfl

theorem reentrancy_lock_scope_witness :
    (midOfRefund SBase 2 1).locked = true ∧
    run (midOfRefund SBase 2 1) (.contribute 3 5 MINIMUM_CONTRIBUTION 0) =
      .error Err.ReentrancyDetected ∧
    run (midOfRefund SBase 2 1) (.claimRefund 3 1 true) =
      .error Err.ReentrancyDetected ∧
    (midOfApprove SBase 1 0 0).locked = SBase.locked := by
  have h := reentrancy_lock_scope
  have h1 := h.1 SBase 2 1 (midOfRefund SBase 2 1) (2 * MINIMUM_CONTRIBUTION) rfl rfl
  exact ⟨h1.1, h1.2.1 3 5 MINIMUM_CONTRIBUTION 0, h1.2.2 3 1 true,
    h.2 SBase 1 0 0 (midOfApprove SBase 1 0 0) (5 * MINIMUM_CONTRIBUTION) 1 rfl⟩

/-- C4 counterexample: `cancelProject` succeeds on the not-yet-created id
0 — the default storage slot's status is `Active`, so the guard passes —
and the next `createProject`, which assigns exactly this id, overwrites
the `Cancelled` status back to `Active`: as stated (over all ids), a
Cancelled project's status is not immutable. -/
theorem cancelled_slot_reactivated_by_create :
    (run (initState 1) (.cancelProject 1 0)).isOk = true ∧
    (SPhantomCancel.projects 0).status = ProjectStatus.Cancelled ∧
    (run SPhantomCancel (.createProject 1 0 "t" "d" 100 10)).isOk = true ∧
    (SPhantomCreate.projects 0).status = ProjectStatus.Active :=
  ⟨rfl, rfl, rfl, rfl⟩

/-- C4 amended: `completeProject` and `cancelProject` succeed only when
the target slot's status is `Active`; for a created project
(`pid < projectCount`) a status that left `Active` never changes again
under any call and the project stays created, so a created project reaches
at most one of the two terminal states.  The `Active` guard, however, also
passes for not-yet-created ids (whose default slot status is `Active`),
and for exactly those ids a later `createProject` resets the slot's status
to `Active` (see the counterexample). -/
theorem status_transitions_one_way :
    (∀ (s : CState) (sender pid : Nat) (t : CState) (ev : List Event) (r : Option Nat),
      completeProject s sender pid = .ok (t, ev, r) →
      (s.projects pid).status = ProjectStatus.Active) ∧
    (∀ (s : CState) (sender pid : Nat) (t : CState) (ev : List Event) (r : Option Nat),
      cancelProject s sender pid = .ok (t, ev, r) →
      (s.projects pid).status = ProjectStatus.Active) ∧
    (∀ (s : CState) (c : Call) (pid : Nat), pid < s.projectCount →
      (s.projects pid).status ≠ ProjectStatus.Active →
      ((execCall s c).projects pid).status = (s.projects pid).status ∧
      pid < (execCall s c).projectCount) := by
  refine ⟨?_, ?_, ?_⟩
  · intro s sender pid t ev r h
    rw [completeProject_eq_ok_iff] at h
    exact h.2.1
  · intro s sender pid t ev r h
    rw [cancelProject_eq_ok_iff] at h
    exact h.2.1
  · intro s c pid hlt hterm
    exact statusFrozen c hlt hterm

theorem status_transitions_one_way_witness :
    ((execCall SBase (.completeProject 1 1)).projects 1).status =
      (SBase.projects 1).status ∧
    1 < (execCall SBase (.completeProject 1 1)).projectCount :=
  status_transitions_one_way.2.2 SBase (.completeProject 1 1) 1 (by decide) (by decide)

end Crowdfunding
